import Mathlib

/- Verification of the Lantah/go ledger-ingestion components: the pipeline
driver (StreamLedgerTransactions / StreamChanges), the trusted ledger-hash
store, the gravity subprocess runner's start path, the transaction
processors' batch construction, the change/transaction readers, and network
transaction hashing. Each definition is a shallow embedding of the
corresponding Go function. -/

namespace Lantah

/-! ### Errors (support/errors)

`errors.Wrap`/`errors.Wrapf` build a new non-nil error holding a context
message and the wrapped inner error. -/

inductive Err : Type
| msg (s : String) : Err
| wrap (context : String) (inner : Err) : Err
deriving DecidableEq, Repr

/-! ### Pipeline driver
(services/orbitr/internal/ingest/processors/change_processors.go)

The reader is modelled as the finite list of outcomes successive
`reader.Read()` calls yield before `io.EOF`; the filterer and the
processors are modelled as functions returning the Go results (a Go `nil`
error is `none`).  Each driver returns the Go function's error result
paired with the trace of reader, filterer and processor calls it actually
performed, so that fail-fast and routing are observable. -/

/-- A ledger transaction as the driver sees it: the driver inspects only
`Index` (for error messages); `payload` stands for the rest of the
record. -/
structure LedgerTransaction where
  Index : Nat
  payload : Nat
deriving DecidableEq, Repr

/-- A single ledger-entry change; the driver treats it opaquely. -/
structure Change where
  payload : Nat
deriving DecidableEq, Repr

/-- One outcome of a `Read()` call that is not `io.EOF`: a value or an
error.  End-of-data is reaching the end of the outcome list. -/
inductive ReadOutcome (α : Type) : Type
| ok (a : α) : ReadOutcome α
| err (e : Err) : ReadOutcome α
deriving DecidableEq, Repr

/-- The calls the driver loop makes, in order: reads of the reader, filter
calls, and processor calls (filtered-transaction processor, full
transaction processor, change processor). -/
inductive Call : Type
| read : Call
| filter (tx : LedgerTransaction) : Call
| procFiltered (tx : LedgerTransaction) : Call
| procFull (tx : LedgerTransaction) : Call
| procChange (c : Change) : Call
deriving DecidableEq, Repr

/-- `StreamLedgerTransactions`: reads each transaction, asks the filterer
whether to include it, routes excluded transactions to
`filteredTxProcessor` and included ones to `txProcessor`, and returns on
`io.EOF` (nil) or on the first error (wrapped).  Returns the error result
together with the trace of calls made. -/
def StreamLedgerTransactions
    (txFilterer : LedgerTransaction → Bool × Option Err)
    (filteredTxProcessor : LedgerTransaction → Option Err)
    (txProcessor : LedgerTransaction → Option Err) :
    List (ReadOutcome LedgerTransaction) → Option Err × List Call
| [] => (none, [Call.read])
| ReadOutcome.err e :: _ =>
  (some (Err.wrap "could not read transaction" e), [Call.read])
| ReadOutcome.ok tx :: rest =>
  match txFilterer tx with
  | (_, some e) =>
    (some (Err.wrap ("could not filter transaction " ++ toString tx.Index) e),
     [Call.read, Call.filter tx])
  | (false, none) =>
    match filteredTxProcessor tx with
    | some e =>
      (some (Err.wrap ("could not process transaction " ++ toString tx.Index) e),
       [Call.read, Call.filter tx, Call.procFiltered tx])
    | none =>
      ((StreamLedgerTransactions txFilterer filteredTxProcessor txProcessor rest).1,
       Call.read :: Call.filter tx :: Call.procFiltered tx ::
         (StreamLedgerTransactions txFilterer filteredTxProcessor txProcessor rest).2)
  | (true, none) =>
    match txProcessor tx with
    | some e =>
      (some (Err.wrap ("could not process transaction " ++ toString tx.Index) e),
       [Call.read, Call.filter tx, Call.procFull tx])
    | none =>
      ((StreamLedgerTransactions txFilterer filteredTxProcessor txProcessor rest).1,
       Call.read :: Call.filter tx :: Call.procFull tx ::
         (StreamLedgerTransactions txFilterer filteredTxProcessor txProcessor rest).2)

/-- `StreamChanges`: reads each change and feeds it to the change
processor, returning on `io.EOF` (nil) or on the first error (wrapped;
the source wraps read errors with the same "could not read transaction"
message).  Returns the error result together with the trace of calls. -/
def StreamChanges (changeProcessor : Change → Option Err) :
    List (ReadOutcome Change) → Option Err × List Call
| [] => (none, [Call.read])
| ReadOutcome.err e :: _ =>
  (some (Err.wrap "could not read transaction" e), [Call.read])
| ReadOutcome.ok c :: rest =>
  match changeProcessor c with
  | some e =>
    (some (Err.wrap "could not process change" e), [Call.read, Call.procChange c])
  | none =>
    ((StreamChanges changeProcessor rest).1,
     Call.read :: Call.procChange c :: (StreamChanges changeProcessor rest).2)

/-- The processor call the driver makes for a transaction once the
filterer answers `include` with a nil error: the filtered-transaction
processor on `include = false`, the full transaction processor on
`include = true`. -/
def routedCall : Bool → LedgerTransaction → Call
| false, tx => Call.procFiltered tx
| true, tx => Call.procFull tx

theorem routedCall_ne_read (b : Bool) (tx : LedgerTransaction) :
    routedCall b tx ≠ Call.read := by
  cases b <;> simp [routedCall]

theorem routedCall_ne_filter (b : Bool) (tx t : LedgerTransaction) :
    routedCall b tx ≠ Call.filter t := by
  cases b <;> simp [routedCall]

/-- The processor of the opposite route is never called on a transaction
the filterer routes the other way. -/
theorem slt_opposite_route_not_called
    (txFilterer : LedgerTransaction → Bool × Option Err)
    (filteredTxProcessor txProcessor : LedgerTransaction → Option Err)
    (tx : LedgerTransaction) (b : Bool) (hf : txFilterer tx = (b, none)) :
    ∀ reader : List (ReadOutcome LedgerTransaction),
      routedCall (!b) tx ∉
        (StreamLedgerTransactions txFilterer filteredTxProcessor txProcessor reader).2 := by
  intro reader
  induction reader with
  | nil =>
    simp [StreamLedgerTransactions, routedCall_ne_read]
  | cons head rest ih =>
    cases head with
    | err e =>
      simp [StreamLedgerTransactions, routedCall_ne_read]
    | ok t =>
      have htx : ∀ hb : Bool, txFilterer t = (hb, none) → hb ≠ b → tx ≠ t := by
        intro hb ht hne heq
        rw [heq, ht] at hf
        exact hne (Prod.mk.injEq .. ▸ hf).1
      rcases hft : txFilterer t with ⟨bt, oe⟩
      cases oe with
      | some e =>
        simp [StreamLedgerTransactions, hft, routedCall_ne_read, routedCall_ne_filter]
      | none =>
        cases bt with
        | false =>
          cases hfp : filteredTxProcessor t with
          | some e =>
            simp only [StreamLedgerTransactions, hft, hfp, List.mem_cons,
              List.mem_singleton, List.not_mem_nil]
            push_neg
            refine ⟨routedCall_ne_read _ _, routedCall_ne_filter _ _ _, ?_⟩
            cases b with
            | false => have := htx false hft; simp [routedCall]
            | true =>
              have hne : tx ≠ t := htx false hft (by simp)
              simpa [routedCall] using hne
          | none =>
            simp only [StreamLedgerTransactions, hft, hfp, List.mem_cons]
            push_neg
            refine ⟨routedCall_ne_read _ _, routedCall_ne_filter _ _ _, ?_, ih⟩
            cases b with
            | false => simp [routedCall]
            | true =>
              have hne : tx ≠ t := htx false hft (by simp)
              simpa [routedCall] using hne
        | true =>
          cases hp : txProcessor t with
          | some e =>
            simp only [StreamLedgerTransactions, hft, hp, List.mem_cons,
              List.mem_singleton, List.not_mem_nil]
            push_neg
            refine ⟨routedCall_ne_read _ _, routedCall_ne_filter _ _ _, ?_⟩
            cases b with
            | false =>
              have hne : tx ≠ t := htx true hft (by simp)
              simpa [routedCall] using hne
            | true => simp [routedCall]
          | none =>
            simp only [StreamLedgerTransactions, hft, hp, List.mem_cons]
            push_neg
            refine ⟨routedCall_ne_read _ _, routedCall_ne_filter _ _ _, ?_, ih⟩
            cases b with
            | false =>
              have hne : tx ≠ t := htx true hft (by simp)
              simpa [routedCall] using hne
            | true => simp [routedCall]

/-- Whenever the filterer was called on a transaction and answered with a
nil error, the processor of the chosen route was called on that
transaction in the same iteration. -/
theorem slt_route_called
    (txFilterer : LedgerTransaction → Bool × Option Err)
    (filteredTxProcessor txProcessor : LedgerTransaction → Option Err)
    (tx : LedgerTransaction) (b : Bool) (hf : txFilterer tx = (b, none)) :
    ∀ reader : List (ReadOutcome LedgerTransaction),
      Call.filter tx ∈
          (StreamLedgerTransactions txFilterer filteredTxProcessor txProcessor reader).2 →
        routedCall b tx ∈
          (StreamLedgerTransactions txFilterer filteredTxProcessor txProcessor reader).2 := by
  intro reader
  induction reader with
  | nil =>
    simp [StreamLedgerTransactions]
  | cons head rest ih =>
    cases head with
    | err e =>
      simp [StreamLedgerTransactions]
    | ok t =>
      rcases hft : txFilterer t with ⟨bt, oe⟩
      cases oe with
      | some e =>
        simp only [StreamLedgerTransactions, hft, List.mem_cons,
          List.mem_singleton, List.not_mem_nil]
        rintro (h | h | h)
        · exact absurd h (by simp)
        · cases h with
          | refl =>
            rw [hft] at hf
            exact absurd (Prod.mk.injEq .. ▸ hf).2 (by simp)
        · exact absurd h (by simp)
      | none =>
        cases bt with
        | false =>
          cases hfp : filteredTxProcessor t with
          | some e =>
            simp only [StreamLedgerTransactions, hft, hfp, List.mem_cons,
              List.mem_singleton, List.not_mem_nil]
            rintro (h | h | h)
            · exact absurd h (by simp)
            · cases h with
              | refl =>
                rw [hft] at hf
                have hb : b = false := ((Prod.mk.injEq .. ▸ hf).1).symm
                subst hb
                simp [routedCall]
            · rcases h with h | h
              · exact absurd h (by simp)
              · exact absurd h (by simp)
          | none =>
            simp only [StreamLedgerTransactions, hft, hfp, List.mem_cons]
            rintro (h | h | h | h)
            · exact absurd h (by simp)
            · cases h with
              | refl =>
                rw [hft] at hf
                have hb : b = false := ((Prod.mk.injEq .. ▸ hf).1).symm
                subst hb
                simp [routedCall]
            · exact absurd h (by simp)
            · exact Or.inr (Or.inr (Or.inr (ih h)))
        | true =>
          cases hp : txProcessor t with
          | some e =>
            simp only [StreamLedgerTransactions, hft, hp, List.mem_cons,
              List.mem_singleton, List.not_mem_nil]
            rintro (h | h | h)
            · exact absurd h (by simp)
            · cases h with
              | refl =>
                rw [hft] at hf
                have hb : b = true := ((Prod.mk.injEq .. ▸ hf).1).symm
                subst hb
                simp [routedCall]
            · rcases h with h | h
              · exact absurd h (by simp)
              · exact absurd h (by simp)
          | none =>
            simp only [StreamLedgerTransactions, hft, hp, List.mem_cons]
            rintro (h | h | h | h)
            · exact absurd h (by simp)
            · cases h with
              | refl =>
                rw [hft] at hf
                have hb : b = true := ((Prod.mk.injEq .. ▸ hf).1).symm
                subst hb
                simp [routedCall]
            · exact absurd h (by simp)
            · exact Or.inr (Or.inr (Or.inr (ih h)))

/-- C2. Whenever the filterer answers `(false, nil)` for a transaction the
reader yielded (i.e. the filter call appears in the trace), the driver
calls the filtered-transaction processor on it and never the full
transaction processor; with `(true, nil)` the full processor is called and
never the filtered one. -/
theorem slt_filter_routing
    (txFilterer : LedgerTransaction → Bool × Option Err)
    (filteredTxProcessor txProcessor : LedgerTransaction → Option Err)
    (reader : List (ReadOutcome LedgerTransaction)) (tx : LedgerTransaction) :
    (txFilterer tx = (false, none) →
      (Call.filter tx ∈
          (StreamLedgerTransactions txFilterer filteredTxProcessor txProcessor reader).2 →
        Call.procFiltered tx ∈
          (StreamLedgerTransactions txFilterer filteredTxProcessor txProcessor reader).2)
      ∧ Call.procFull tx ∉
          (StreamLedgerTransactions txFilterer filteredTxProcessor txProcessor reader).2)
    ∧ (txFilterer tx = (true, none) →
      (Call.filter tx ∈
          (StreamLedgerTransactions txFilterer filteredTxProcessor txProcessor reader).2 →
        Call.procFull tx ∈
          (StreamLedgerTransactions txFilterer filteredTxProcessor txProcessor reader).2)
      ∧ Call.procFiltered tx ∉
          (StreamLedgerTransactions txFilterer filteredTxProcessor txProcessor reader).2) := by
  constructor
  · intro hf
    exact ⟨slt_route_called txFilterer filteredTxProcessor txProcessor tx false hf reader,
      slt_opposite_route_not_called txFilterer filteredTxProcessor txProcessor tx false hf
        reader⟩
  · intro hf
    exact ⟨slt_route_called txFilterer filteredTxProcessor txProcessor tx true hf reader,
      slt_opposite_route_not_called txFilterer filteredTxProcessor txProcessor tx true hf
        reader⟩

/-- Witness for C2: a filterer excluding odd indices, applied to a reader
with one excluded and one included transaction. -/
theorem slt_filter_routing_witness :
    (Call.filter (⟨1, 0⟩ : LedgerTransaction) ∈
        (StreamLedgerTransactions (fun t => (decide (t.Index % 2 = 0), none))
          (fun _ => none) (fun _ => none)
          [ReadOutcome.ok ⟨1, 0⟩, ReadOutcome.ok ⟨2, 0⟩]).2 →
      Call.procFiltered (⟨1, 0⟩ : LedgerTransaction) ∈
        (StreamLedgerTransactions (fun t => (decide (t.Index % 2 = 0), none))
          (fun _ => none) (fun _ => none)
          [ReadOutcome.ok ⟨1, 0⟩, ReadOutcome.ok ⟨2, 0⟩]).2)
    ∧ Call.procFull (⟨1, 0⟩ : LedgerTransaction) ∉
        (StreamLedgerTransactions (fun t => (decide (t.Index % 2 = 0), none))
          (fun _ => none) (fun _ => none)
          [ReadOutcome.ok ⟨1, 0⟩, ReadOutcome.ok ⟨2, 0⟩]).2
    ∧ (Call.filter (⟨2, 0⟩ : LedgerTransaction) ∈
        (StreamLedgerTransactions (fun t => (decide (t.Index % 2 = 0), none))
          (fun _ => none) (fun _ => none)
          [ReadOutcome.ok ⟨1, 0⟩, ReadOutcome.ok ⟨2, 0⟩]).2 →
      Call.procFull (⟨2, 0⟩ : LedgerTransaction) ∈
        (StreamLedgerTransactions (fun t => (decide (t.Index % 2 = 0), none))
          (fun _ => none) (fun _ => none)
          [ReadOutcome.ok ⟨1, 0⟩, ReadOutcome.ok ⟨2, 0⟩]).2)
    ∧ Call.procFiltered (⟨2, 0⟩ : LedgerTransaction) ∉
        (StreamLedgerTransactions (fun t => (decide (t.Index % 2 = 0), none))
          (fun _ => none) (fun _ => none)
          [ReadOutcome.ok ⟨1, 0⟩, ReadOutcome.ok ⟨2, 0⟩]).2 := by
  have h1 := (slt_filter_routing (fun t => (decide (t.Index % 2 = 0), none))
    (fun _ => none) (fun _ => none)
    [ReadOutcome.ok ⟨1, 0⟩, ReadOutcome.ok ⟨2, 0⟩] ⟨1, 0⟩).1 (by decide)
  have h2 := (slt_filter_routing (fun t => (decide (t.Index % 2 = 0), none))
    (fun _ => none) (fun _ => none)
    [ReadOutcome.ok ⟨1, 0⟩, ReadOutcome.ok ⟨2, 0⟩] ⟨2, 0⟩).2 (by decide)
  exact ⟨h1.1, h1.2, h2.1, h2.2⟩

/-- C1. For every reader prefix and every continuation `rest`, each of the
error events — a read error, a filter error, a filtered-processor error, a
full-processor error in `StreamLedgerTransactions`, and a read or
change-processor error in `StreamChanges` — makes the driver return the
wrapped error at once, with a trace that ends at that event: no further
read, filter or processor call happens, whatever `rest` holds. -/
theorem streamers_stop_on_first_error
    (txFilterer : LedgerTransaction → Bool × Option Err)
    (filteredTxProcessor txProcessor : LedgerTransaction → Option Err)
    (changeProcessor : Change → Option Err)
    (tx : LedgerTransaction) (c : Change) (e : Err)
    (rest : List (ReadOutcome LedgerTransaction)) (restC : List (ReadOutcome Change)) :
    (StreamLedgerTransactions txFilterer filteredTxProcessor txProcessor
        (ReadOutcome.err e :: rest) =
      (some (Err.wrap "could not read transaction" e), [Call.read]))
    ∧ (∀ b : Bool, txFilterer tx = (b, some e) →
        StreamLedgerTransactions txFilterer filteredTxProcessor txProcessor
            (ReadOutcome.ok tx :: rest) =
          (some (Err.wrap ("could not filter transaction " ++ toString tx.Index) e),
           [Call.read, Call.filter tx]))
    ∧ (txFilterer tx = (false, none) → filteredTxProcessor tx = some e →
        StreamLedgerTransactions txFilterer filteredTxProcessor txProcessor
            (ReadOutcome.ok tx :: rest) =
          (some (Err.wrap ("could not process transaction " ++ toString tx.Index) e),
           [Call.read, Call.filter tx, Call.procFiltered tx]))
    ∧ (txFilterer tx = (true, none) → txProcessor tx = some e →
        StreamLedgerTransactions txFilterer filteredTxProcessor txProcessor
            (ReadOutcome.ok tx :: rest) =
          (some (Err.wrap ("could not process transaction " ++ toString tx.Index) e),
           [Call.read, Call.filter tx, Call.procFull tx]))
    ∧ (StreamChanges changeProcessor (ReadOutcome.err e :: restC) =
        (some (Err.wrap "could not read transaction" e), [Call.read]))
    ∧ (changeProcessor c = some e →
        StreamChanges changeProcessor (ReadOutcome.ok c :: restC) =
          (some (Err.wrap "could not process change" e),
           [Call.read, Call.procChange c])) := by
  refine ⟨rfl, ?_, ?_, ?_, rfl, ?_⟩
  · intro b hf
    simp [StreamLedgerTransactions, hf]
  · intro hf hp
    simp [StreamLedgerTransactions, hf, hp]
  · intro hf hp
    simp [StreamLedgerTransactions, hf, hp]
  · intro hp
    simp [StreamChanges, hp]

/-- Witness for C1: the error branches evaluated at concrete filterers,
processors and readers. -/
theorem streamers_stop_on_first_error_witness :
    (StreamLedgerTransactions (fun _ => (true, none)) (fun _ => none) (fun _ => none)
        [ReadOutcome.err (Err.msg "io"), ReadOutcome.ok ⟨2, 0⟩] =
      (some (Err.wrap "could not read transaction" (Err.msg "io")), [Call.read]))
    ∧ (StreamLedgerTransactions (fun _ => (true, some (Err.msg "f")))
          (fun _ => none) (fun _ => none) [ReadOutcome.ok ⟨1, 0⟩, ReadOutcome.ok ⟨2, 0⟩] =
      (some (Err.wrap "could not filter transaction 1" (Err.msg "f")),
       [Call.read, Call.filter ⟨1, 0⟩]))
    ∧ (StreamLedgerTransactions (fun _ => (false, none))
          (fun _ => some (Err.msg "fp")) (fun _ => none) [ReadOutcome.ok ⟨1, 0⟩] =
      (some (Err.wrap "could not process transaction 1" (Err.msg "fp")),
       [Call.read, Call.filter ⟨1, 0⟩, Call.procFiltered ⟨1, 0⟩]))
    ∧ (StreamLedgerTransactions (fun _ => (true, none))
          (fun _ => none) (fun _ => some (Err.msg "p")) [ReadOutcome.ok ⟨1, 0⟩] =
      (some (Err.wrap "could not process transaction 1" (Err.msg "p")),
       [Call.read, Call.filter ⟨1, 0⟩, Call.procFull ⟨1, 0⟩]))
    ∧ (StreamChanges (fun _ => none) [ReadOutcome.err (Err.msg "io"), ReadOutcome.ok ⟨9⟩] =
      (some (Err.wrap "could not read transaction" (Err.msg "io")), [Call.read]))
    ∧ (StreamChanges (fun _ => some (Err.msg "c")) [ReadOutcome.ok ⟨7⟩, ReadOutcome.ok ⟨8⟩] =
      (some (Err.wrap "could not process change" (Err.msg "c")),
       [Call.read, Call.procChange ⟨7⟩])) := by
  refine ⟨?_, ?_, ?_, ?_, ?_, ?_⟩
  · exact (streamers_stop_on_first_error (fun _ => (true, none)) (fun _ => none)
      (fun _ => none) (fun _ => none) ⟨1, 0⟩ ⟨7⟩ (Err.msg "io")
      [ReadOutcome.ok ⟨2, 0⟩] []).1
  · exact (streamers_stop_on_first_error (fun _ => (true, some (Err.msg "f")))
      (fun _ => none) (fun _ => none) (fun _ => none) ⟨1, 0⟩ ⟨7⟩ (Err.msg "f")
      [ReadOutcome.ok ⟨2, 0⟩] []).2.1 true rfl
  · exact (streamers_stop_on_first_error (fun _ => (false, none))
      (fun _ => some (Err.msg "fp")) (fun _ => none) (fun _ => none) ⟨1, 0⟩ ⟨7⟩
      (Err.msg "fp") [] []).2.2.1 rfl rfl
  · exact (streamers_stop_on_first_error (fun _ => (true, none)) (fun _ => none)
      (fun _ => some (Err.msg "p")) (fun _ => none) ⟨1, 0⟩ ⟨7⟩ (Err.msg "p")
      [] []).2.2.2.1 rfl rfl
  · exact (streamers_stop_on_first_error (fun _ => (true, none)) (fun _ => none)
      (fun _ => none) (fun _ => none) ⟨1, 0⟩ ⟨7⟩ (Err.msg "io")
      [] [ReadOutcome.ok ⟨9⟩]).2.2.2.2.1
  · exact (streamers_stop_on_first_error (fun _ => (true, none)) (fun _ => none)
      (fun _ => none) (fun _ => some (Err.msg "c")) ⟨1, 0⟩ ⟨7⟩ (Err.msg "c")
      [] [ReadOutcome.ok ⟨8⟩]).2.2.2.2.2 rfl

theorem count_read_cons_filter (t : LedgerTransaction) (l : List Call) :
    (Call.filter t :: l).count Call.read = l.count Call.read := by
  simp [List.count_cons]

theorem count_read_cons_procFiltered (t : LedgerTransaction) (l : List Call) :
    (Call.procFiltered t :: l).count Call.read = l.count Call.read := by
  simp [List.count_cons]

theorem count_read_cons_procFull (t : LedgerTransaction) (l : List Call) :
    (Call.procFull t :: l).count Call.read = l.count Call.read := by
  simp [List.count_cons]

theorem count_read_cons_procChange (c : Change) (l : List Call) :
    (Call.procChange c :: l).count Call.read = l.count Call.read := by
  simp [List.count_cons]

theorem count_read_cons_read (l : List Call) :
    (Call.read :: l).count Call.read = l.count Call.read + 1 := by
  simp [List.count_cons]

/-- C4. The drivers return a nil error exactly when the reader reached
end-of-data with no intervening error: the empty reader (immediate
`io.EOF`) yields `(nil, one read)`, and in general the result is nil iff
the trace holds `length + 1` reads — every element was read and one final
read returned `io.EOF`, which is treated as normal termination rather than
an error. -/
theorem streamers_eof_is_success
    (txFilterer : LedgerTransaction → Bool × Option Err)
    (filteredTxProcessor txProcessor : LedgerTransaction → Option Err)
    (changeProcessor : Change → Option Err)
    (reader : List (ReadOutcome LedgerTransaction))
    (readerC : List (ReadOutcome Change)) :
    (StreamLedgerTransactions txFilterer filteredTxProcessor txProcessor [] =
      ((none : Option Err), [Call.read]))
    ∧ (StreamChanges changeProcessor [] = ((none : Option Err), [Call.read]))
    ∧ ((StreamLedgerTransactions txFilterer filteredTxProcessor txProcessor reader).1 = none ↔
        (StreamLedgerTransactions txFilterer filteredTxProcessor txProcessor reader).2.count
            Call.read = reader.length + 1)
    ∧ ((StreamChanges changeProcessor readerC).1 = none ↔
        (StreamChanges changeProcessor readerC).2.count Call.read = readerC.length + 1) := by
  refine ⟨rfl, rfl, ?_, ?_⟩
  · induction reader with
    | nil => simp [StreamLedgerTransactions]
    | cons head rest ih =>
      cases head with
      | err e =>
        simp only [StreamLedgerTransactions, List.count_cons, List.count_nil,
          List.length_cons]
        simp only [Option.some_ne_none, false_iff]
        simp
      | ok t =>
        rcases hft : txFilterer t with ⟨bt, oe⟩
        cases oe with
        | some e =>
          simp only [StreamLedgerTransactions, hft]
          simp [List.count_cons]
        | none =>
          cases bt with
          | false =>
            cases hfp : filteredTxProcessor t with
            | some e =>
              simp only [StreamLedgerTransactions, hft, hfp]
              simp [List.count_cons]
            | none =>
              simp only [StreamLedgerTransactions, hft, hfp, List.length_cons,
                count_read_cons_read, count_read_cons_filter, count_read_cons_procFiltered]
              rw [ih]
              omega
          | true =>
            cases hp : txProcessor t with
            | some e =>
              simp only [StreamLedgerTransactions, hft, hp]
              simp [List.count_cons]
            | none =>
              simp only [StreamLedgerTransactions, hft, hp, List.length_cons,
                count_read_cons_read, count_read_cons_filter, count_read_cons_procFull]
              rw [ih]
              omega
  · induction readerC with
    | nil => simp [StreamChanges]
    | cons head rest ih =>
      cases head with
      | err e =>
        simp only [StreamChanges, List.count_cons, List.count_nil, List.length_cons]
        simp only [Option.some_ne_none, false_iff]
        simp
      | ok c =>
        cases hp : changeProcessor c with
        | some e =>
          simp only [StreamChanges, hp]
          simp [List.count_cons]
        | none =>
          simp only [StreamChanges, hp, List.length_cons,
            count_read_cons_read, count_read_cons_procChange]
          rw [ih]
          omega

/-! ### Trusted ledger-hash store (ingest/ledgerbackend/ledger_hash_store.go)

`OrbitRDBLedgerHashStore.GetLedgerHash` issues
`SELECT hl.ledger_hash FROM history_ledgers hl WHERE sequence = ? LIMIT 1`
through `session.Get`.  The session is modelled by the `history_ledgers`
table contents (`sequence -> ledger_hash`) plus an optional session
failure; `session.Get` scans the single row into the destination string,
which keeps its zero value `""` on any error, and `session.NoRows`
recognises the no-rows error. -/

/-- A database error as `session.Get` returns it: the no-rows condition or
any other failure. -/
inductive DBError : Type
| noRows : DBError
| other (e : Err) : DBError
deriving DecidableEq, Repr

/-- The query `GetLedgerHash` builds with squirrel. -/
structure SelectQuery where
  column : String
  table : String
  limit : Nat
  whereSequence : Nat
deriving DecidableEq, Repr

def getLedgerHashQuery (seq : Nat) : SelectQuery :=
  { column := "hl.ledger_hash", table := "history_ledgers hl", limit := 1,
    whereSequence := seq }

/-- `session.Get`: runs the query against the `history_ledgers` table
(`db : sequence -> hash`), unless the session itself fails (`fail`).
Returns the value scanned into the destination (its zero value `""` when
the query errored) and the error. -/
def sessionGet (db : Nat → Option String) (fail : Option Err) (q : SelectQuery) :
    String × Option DBError :=
  match fail with
  | some e => ("", some (DBError.other e))
  | none =>
    match db q.whereSequence with
    | some h => (h, none)
    | none => ("", some DBError.noRows)

/-- `session.NoRows`: true exactly on the no-rows error. -/
def NoRows : Option DBError → Bool
| some DBError.noRows => true
| _ => false

/-- `OrbitRDBLedgerHashStore.GetLedgerHash`: returns
`(hash, found, error)`. -/
def GetLedgerHash (db : Nat → Option String) (fail : Option Err) (seq : Nat) :
    String × Bool × Option DBError :=
  let r := sessionGet db fail (getLedgerHashQuery seq)
  if NoRows r.2 then (r.1, false, none)
  else (r.1, true, r.2)

/-- C3. Against a healthy session, `GetLedgerHash` returns
`(hash, true, nil)` when `history_ledgers` holds a hash for `seq`, and
`("", false, nil)` — found = false with a nil error, not an error — when
no row exists for `seq`. -/
theorem getLedgerHash_found_semantics (db : Nat → Option String) (seq : Nat)
    (h : String) :
    (db seq = some h → GetLedgerHash db none seq = (h, true, none))
    ∧ (db seq = none → GetLedgerHash db none seq = ("", false, none)) := by
  constructor
  · intro hdb
    simp [GetLedgerHash, sessionGet, getLedgerHashQuery, hdb, NoRows]
  · intro hdb
    simp [GetLedgerHash, sessionGet, getLedgerHashQuery, hdb, NoRows]

/-- Witness for C3: a two-row table, looked up at a present and at an
absent sequence number. -/
theorem getLedgerHash_found_semantics_witness :
    (GetLedgerHash (fun s => if s = 5 then some "abcd" else none) none 5 =
      ("abcd", true, none))
    ∧ (GetLedgerHash (fun s => if s = 5 then some "abcd" else none) none 6 =
      ("", false, none)) :=
  ⟨(getLedgerHash_found_semantics (fun s => if s = 5 then some "abcd" else none) 5
      "abcd").1 (by decide),
   (getLedgerHash_found_semantics (fun s => if s = 5 then some "abcd" else none) 6
      "abcd").2 (by decide)⟩

/-- C9. When the query fails with any error other than no-rows,
`GetLedgerHash` returns that error together with `found = true` and the
zero-value hash `""`: the found flag is meaningful only under a nil
error. -/
theorem getLedgerHash_error_returns_found_true (db : Nat → Option String)
    (e : Err) (seq : Nat) :
    GetLedgerHash db (some e) seq = ("", true, some (DBError.other e)) := by
  simp [GetLedgerHash, sessionGet, getLedgerHashQuery, NoRows]

/-! ### gravityRunner posix start path (gravity_runner_posix.go)

`start` makes an anonymous pipe with `os.Pipe`, sets the write end as the
only inherited extra file of the child command (fd 3 on posix), starts the
child, and on a start failure closes both ends before returning the zero
pipe.  The two `os.Pipe` files are modelled as tokens, and the outcomes of
the two fallible calls (`os.Pipe`, `cmd.Start`) are inputs; the result
records the returned pipe and error, the extra files handed to the
command, and the files closed. -/

/-- The two ends of the anonymous pipe `os.Pipe` creates. -/
inductive PFile : Type
| readEnd : PFile
| writeEnd : PFile
deriving DecidableEq, Repr

/-- The `pipe` struct: `Reader` is the read end the runner keeps, `File`
the write end handed to the child.  The zero value holds no files. -/
structure Pipe where
  Reader : Option PFile := none
  File : Option PFile := none
deriving DecidableEq, Repr

/-- The observable outcome of `gravityRunner.start`. -/
structure StartResult where
  pipe : Pipe
  err : Option Err
  extraFiles : List PFile
  closed : List PFile
deriving DecidableEq, Repr

/-- `gravityRunner.getPipeName` (posix): the single extra file is assigned
fd 3 in the child. -/
def getPipeName : String := "fd:3"

/-- `gravityRunner.start` (posix): `pipeErr` is the outcome of `os.Pipe`,
`startErr` the outcome of `cmd.Start`. -/
def gravityRunnerStart (pipeErr : Option Err) (startErr : Option Err) : StartResult :=
  match pipeErr with
  | some e =>
    { pipe := {}, err := some (Err.wrap "error making a pipe" e),
      extraFiles := [], closed := [] }
  | none =>
    match startErr with
    | some e =>
      { pipe := {}, err := some (Err.wrap "error starting gravity" e),
        extraFiles := [PFile.writeEnd], closed := [PFile.writeEnd, PFile.readEnd] }
    | none =>
      { pipe := { Reader := some PFile.readEnd, File := some PFile.writeEnd },
        err := none,
        extraFiles := [PFile.writeEnd], closed := [] }

/-- C5. On every successful `start` call (nil returned error), the child
command inherited exactly one extra file, the write end of the fresh pipe
— which the child addresses as fd 3, as `getPipeName` reports — while the
returned pipe keeps the read end in `Reader` (and the write end in
`File`), with nothing closed. -/
theorem gravityRunnerStart_success_shape (pipeErr startErr : Option Err)
    (h : (gravityRunnerStart pipeErr startErr).err = none) :
    (gravityRunnerStart pipeErr startErr).extraFiles = [PFile.writeEnd]
    ∧ (gravityRunnerStart pipeErr startErr).pipe =
        { Reader := some PFile.readEnd, File := some PFile.writeEnd }
    ∧ (gravityRunnerStart pipeErr startErr).closed = []
    ∧ getPipeName = "fd:3" := by
  cases pipeErr with
  | some e => simp [gravityRunnerStart] at h
  | none =>
    cases startErr with
    | some e => simp [gravityRunnerStart] at h
    | none =>
      exact ⟨rfl, rfl, rfl, rfl⟩

/-- Witness for C5: the successful start evaluated concretely. -/
theorem gravityRunnerStart_success_shape_witness :
    (gravityRunnerStart none none).extraFiles = [PFile.writeEnd]
    ∧ (gravityRunnerStart none none).pipe =
        { Reader := some PFile.readEnd, File := some PFile.writeEnd }
    ∧ (gravityRunnerStart none none).closed = []
    ∧ getPipeName = "fd:3" :=
  gravityRunnerStart_success_shape none none (by decide)

/-- C6. If `cmd.Start` fails after the pipe was created, `start` returns
the wrapped error and the zero-value pipe, and both pipe ends were closed
before returning: no open descriptor is retained on the failure path. -/
theorem gravityRunnerStart_failure_closes_pipe (e : Err) :
    (gravityRunnerStart none (some e)).pipe = {}
    ∧ (gravityRunnerStart none (some e)).err =
        some (Err.wrap "error starting gravity" e)
    ∧ PFile.writeEnd ∈ (gravityRunnerStart none (some e)).closed
    ∧ PFile.readEnd ∈ (gravityRunnerStart none (some e)).closed := by
  refine ⟨rfl, rfl, ?_, ?_⟩ <;> simp [gravityRunnerStart]

/-! ### Transaction processors (transaction_processor.go + processors
package constants)

`NewTransactionProcessor` and `NewTransactionFilteredTmpProcessor` both
construct their batch insert builder with the package constant
`maxBatchSize`.  The builder constructors live in the history package
(outside the reviewed sources); they are modelled as records keeping the
capacity they were constructed with, the only attribute the claim
concerns. -/

def maxBatchSize : Nat := 100000

/-- Which table a transaction batch insert builder targets. -/
inductive BuilderKind : Type
| transactions : BuilderKind
| transactionsFilteredTmp : BuilderKind
deriving DecidableEq, Repr

/-- A transaction batch insert builder, keeping the maximum rows per
flushed insert statement it was constructed with. -/
structure TransactionBatchInsertBuilder where
  kind : BuilderKind
  maxSize : Nat
deriving DecidableEq, Repr

/-- `QTransactions.NewTransactionBatchInsertBuilder`. -/
def NewTransactionBatchInsertBuilder (maxSize : Nat) : TransactionBatchInsertBuilder :=
  { kind := BuilderKind.transactions, maxSize := maxSize }

/-- `QTransactions.NewTransactionFilteredTmpBatchInsertBuilder`. -/
def NewTransactionFilteredTmpBatchInsertBuilder (maxSize : Nat) :
    TransactionBatchInsertBuilder :=
  { kind := BuilderKind.transactionsFilteredTmp, maxSize := maxSize }

/-- The `TransactionProcessor` struct: queried sequence and batch
builder. -/
structure TransactionProcessor where
  sequence : Nat
  batch : TransactionBatchInsertBuilder
deriving DecidableEq, Repr

/-- `NewTransactionProcessor`. -/
def NewTransactionProcessor (sequence : Nat) : TransactionProcessor :=
  { sequence := sequence, batch := NewTransactionBatchInsertBuilder maxBatchSize }

/-- `NewTransactionFilteredTmpProcessor`. -/
def NewTransactionFilteredTmpProcessor (sequence : Nat) : TransactionProcessor :=
  { sequence := sequence,
    batch := NewTransactionFilteredTmpBatchInsertBuilder maxBatchSize }

/-- C7. Both transaction-processor constructors build their batch insert
builder with the same fixed cap `maxBatchSize`, and that constant is
100000. -/
theorem transactionProcessors_use_maxBatchSize (sequence : Nat) :
    (NewTransactionProcessor sequence).batch.maxSize = maxBatchSize
    ∧ (NewTransactionFilteredTmpProcessor sequence).batch.maxSize = maxBatchSize
    ∧ maxBatchSize = 100000 :=
  ⟨rfl, rfl, rfl⟩

/-! ### Change/Transaction readers (ingest package) -/

/-- Modelled from the spec: the implementations of
`ingest.NewLedgerChangeReader` and `ingest.NewLedgerTransactionReader` are
not among the reviewed sources.  Per the spec, one transaction's decoded
metadata holds its envelope, its fee-processing changes and its
per-operation entry changes. -/
structure TxMeta where
  envelope : Nat
  feeChanges : List Change
  opChanges : List (List Change)
deriving DecidableEq, Repr

/-- Modelled from the spec: `LedgerCloseMeta` is the decoded, immutable,
self-contained snapshot of one closed ledger — header data,
ledger-header-level changes, and the ordered transaction set. -/
structure LedgerCloseMeta where
  sequence : Nat
  headerChanges : List Change
  txs : List TxMeta
deriving DecidableEq, Repr

/-- A change reader: the lazily yielded remainder of the derived change
sequence.  Single-pass and not restartable. -/
structure ChangeReader where
  remaining : List Change
deriving DecidableEq, Repr

/-- A transaction reader: the remainder of the derived transaction
sequence. -/
structure LedgerTransactionReader where
  remaining : List LedgerTransaction
deriving DecidableEq, Repr

/-- Modelled from the spec: the change reader is constructed from one
`LedgerCloseMeta` and derives changes in the fixed protocol sub-order —
ledger-header-level changes first, then per-transaction fee changes in
transaction order, then per-transaction, per-operation entry changes in
(transaction order, operation order). -/
def newChangeReader (lcm : LedgerCloseMeta) : ChangeReader :=
  { remaining :=
      lcm.headerChanges
        ++ lcm.txs.flatMap (fun t => t.feeChanges)
        ++ lcm.txs.flatMap (fun t => t.opChanges.flatten) }

/-- Modelled from the spec: the transaction reader is constructed from one
`LedgerCloseMeta` and yields `LedgerTransaction` records in strictly
ascending `Index` order (indices count from 1 within the ledger). -/
def newLedgerTransactionReader (lcm : LedgerCloseMeta) : LedgerTransactionReader :=
  { remaining :=
      lcm.txs.enum.map (fun p => { Index := p.1 + 1, payload := p.2.envelope }) }

/-- `ChangeReader.Read`: next change, or `none` for end-of-data. -/
def ChangeReader.Read : ChangeReader → Option (Change × ChangeReader)
| ⟨[]⟩ => none
| ⟨c :: rest⟩ => some (c, ⟨rest⟩)

/-- `LedgerTransactionReader.Read`: next transaction, or `none` for
end-of-data. -/
def LedgerTransactionReader.Read :
    LedgerTransactionReader → Option (LedgerTransaction × LedgerTransactionReader)
| ⟨[]⟩ => none
| ⟨tx :: rest⟩ => some (tx, ⟨rest⟩)

/-- Repeatedly `Read` a change reader to end-of-data. -/
def drainChanges : ChangeReader → List Change
| ⟨[]⟩ => []
| ⟨c :: rest⟩ => c :: drainChanges ⟨rest⟩

/-- Repeatedly `Read` a transaction reader to end-of-data. -/
def drainTransactions : LedgerTransactionReader → List LedgerTransaction
| ⟨[]⟩ => []
| ⟨tx :: rest⟩ => tx :: drainTransactions ⟨rest⟩

/-- Draining agrees with iterated `Read`. -/
theorem drainChanges_read (r : ChangeReader) :
    drainChanges r = match r.Read with
      | none => []
      | some (c, rest) => c :: drainChanges rest := by
  rcases r with ⟨l⟩
  cases l <;> simp [drainChanges, ChangeReader.Read]

/-- Draining agrees with iterated `Read`. -/
theorem drainTransactions_read (r : LedgerTransactionReader) :
    drainTransactions r = match r.Read with
      | none => []
      | some (tx, rest) => tx :: drainTransactions rest := by
  rcases r with ⟨l⟩
  cases l <;> simp [drainTransactions, LedgerTransactionReader.Read]

/-- C8. Constructing the change reader and the transaction reader twice
from the same `LedgerCloseMeta` and draining each to end-of-data yields
identical ordered sequences on both runs: derivation is a pure function of
the immutable close metadata. -/
theorem readers_rederive_deterministically (lcm : LedgerCloseMeta)
    (r1 r2 : ChangeReader) (t1 t2 : LedgerTransactionReader)
    (hr1 : r1 = newChangeReader lcm) (hr2 : r2 = newChangeReader lcm)
    (ht1 : t1 = newLedgerTransactionReader lcm)
    (ht2 : t2 = newLedgerTransactionReader lcm) :
    drainChanges r1 = drainChanges r2
    ∧ drainTransactions t1 = drainTransactions t2 := by
  subst hr1; subst hr2; subst ht1; subst ht2
  exact ⟨rfl, rfl⟩

/-- Witness for C8: a concrete one-transaction ledger, derived twice. -/
theorem readers_rederive_deterministically_witness :
    drainChanges (newChangeReader
        ⟨7, [⟨1⟩], [⟨5, [⟨2⟩], [[⟨3⟩], [⟨4⟩]]⟩]⟩) =
      drainChanges (newChangeReader
        ⟨7, [⟨1⟩], [⟨5, [⟨2⟩], [[⟨3⟩], [⟨4⟩]]⟩]⟩)
    ∧ drainTransactions (newLedgerTransactionReader
        ⟨7, [⟨1⟩], [⟨5, [⟨2⟩], [[⟨3⟩], [⟨4⟩]]⟩]⟩) =
      drainTransactions (newLedgerTransactionReader
        ⟨7, [⟨1⟩], [⟨5, [⟨2⟩], [[⟨3⟩], [⟨4⟩]]⟩]⟩) :=
  readers_rederive_deterministically ⟨7, [⟨1⟩], [⟨5, [⟨2⟩], [[⟨3⟩], [⟨4⟩]]⟩]⟩
    _ _ _ _ rfl rfl rfl rfl

/-! ### Network transaction hashing (network/main.go)

`hashTx` rejects a blank network passphrase, otherwise marshals the
signature payload (network id plus tagged transaction) and hashes the
bytes.  XDR marshalling and `hash.Hash` (sha256) live outside the reviewed
sources, so the model takes them as the parameters `marshal` and `hashFn`;
bytes are `List Nat`.  `strings.TrimSpace` trims the characters
`unicode.IsSpace` accepts. -/

/-- `unicode.IsSpace`: '\t', '\n', '\v', '\f', '\r', ' ', U+0085, U+00A0,
and the Unicode space/line/paragraph separators. -/
def isSpaceGo (c : Char) : Bool :=
  c == ' ' || c == '\t' || c == '\n' || c == '\u000B' || c == '\u000C' ||
  c == '\r' || c == '\u0085' || c == '\u00A0' || c == '\u1680' ||
  ('\u2000' ≤ c && c ≤ '\u200A') || c == '\u2028' || c == '\u2029' ||
  c == '\u202F' || c == '\u205F' || c == '\u3000'

/-- `strings.TrimSpace`: drop leading and trailing space characters. -/
def trimSpaceGo (s : String) : String :=
  String.mk (((s.toList.dropWhile isSpaceGo).reverse.dropWhile isSpaceGo).reverse)

theorem trimSpaceGo_eq_empty_of_all_space (s : String)
    (h : s.toList.all isSpaceGo) : trimSpaceGo s = "" := by
  unfold trimSpaceGo
  have h1 : s.toList.dropWhile isSpaceGo = [] :=
    List.dropWhile_eq_nil_iff.mpr (fun x hx => List.all_eq_true.mp h x hx)
  rw [h1]
  rfl

/-- The zero value of `[32]byte`. -/
def zeroHash : List Nat := List.replicate 32 0

/-- `xdr.Transaction` (the fields `HashTransactionV0` populates; other
payload content is abstracted into the field values). -/
structure Transaction where
  sourceAccount : Nat
  fee : Nat
  seqNum : Int
  memo : Nat
  operations : List Nat
  cond : Nat
deriving DecidableEq, Repr

/-- `xdr.TransactionV0`. -/
structure TransactionV0 where
  sourceAccountEd25519 : Nat
  fee : Nat
  seqNum : Int
  memo : Nat
  operations : List Nat
  timeBounds : Nat
deriving DecidableEq, Repr

/-- `xdr.FeeBumpTransaction`. -/
structure FeeBumpTransaction where
  feeSource : Nat
  fee : Int
  innerTx : Transaction
deriving DecidableEq, Repr

/-- `xdr.TransactionSignaturePayloadTaggedTransaction`: a union over the
v1 transaction and the fee-bump transaction. -/
inductive TaggedTransaction : Type
| tx (t : Transaction) : TaggedTransaction
| feeBump (t : FeeBumpTransaction) : TaggedTransaction
deriving DecidableEq, Repr

/-- `xdr.TransactionSignaturePayload`. -/
structure TransactionSignaturePayload where
  networkId : List Nat
  taggedTransaction : TaggedTransaction
deriving DecidableEq, Repr

/-- `network.ID`: the hash of the passphrase bytes. -/
def ID (hashFn : List Nat → List Nat) (passphrase : String) : List Nat :=
  hashFn (passphrase.toUTF8.toList.map (fun b => b.toNat))

/-- `network.hashTx`: reject a blank passphrase with the zero hash and the
"empty network passphrase" error; otherwise marshal the signature payload
and hash the bytes. -/
def hashTx (marshal : TransactionSignaturePayload → Except Err (List Nat))
    (hashFn : List Nat → List Nat)
    (tx : TaggedTransaction) (passphrase : String) : List Nat × Option Err :=
  if trimSpaceGo passphrase = "" then
    (zeroHash, some (Err.msg "empty network passphrase"))
  else
    match marshal { networkId := ID hashFn passphrase, taggedTransaction := tx } with
    | Except.error e => (zeroHash, some (Err.wrap "marshal tx failed" e))
    | Except.ok txBytes => (hashFn txBytes, none)

/-- `network.HashTransaction`. -/
def HashTransaction (marshal : TransactionSignaturePayload → Except Err (List Nat))
    (hashFn : List Nat → List Nat)
    (tx : Transaction) (passphrase : String) : List Nat × Option Err :=
  hashTx marshal hashFn (TaggedTransaction.tx tx) passphrase

/-- `network.HashFeeBumpTransaction`. -/
def HashFeeBumpTransaction
    (marshal : TransactionSignaturePayload → Except Err (List Nat))
    (hashFn : List Nat → List Nat)
    (tx : FeeBumpTransaction) (passphrase : String) : List Nat × Option Err :=
  hashTx marshal hashFn (TaggedTransaction.feeBump tx) passphrase

/-- `xdr.NewMuxedAccount` with `CryptoKeyTypeKeyTypeEd25519` (outside the
reviewed sources) always succeeds, returning the muxed account wrapping
the ed25519 key. -/
def NewMuxedAccountEd25519 (key : Nat) : Nat := key

/-- `network.HashTransactionV0`: lift the legacy transaction to a v1
transaction (source account from the ed25519 key, preconditions from the
time bounds) and hash that. -/
def HashTransactionV0 (marshal : TransactionSignaturePayload → Except Err (List Nat))
    (hashFn : List Nat → List Nat)
    (tx : TransactionV0) (passphrase : String) : List Nat × Option Err :=
  HashTransaction marshal hashFn
    { sourceAccount := NewMuxedAccountEd25519 tx.sourceAccountEd25519,
      fee := tx.fee, memo := tx.memo, operations := tx.operations,
      seqNum := tx.seqNum, cond := tx.timeBounds } passphrase

/-- `xdr.TransactionEnvelope`: the XDR union's three arms. -/
inductive TransactionEnvelope : Type
| v0 (tx : TransactionV0) : TransactionEnvelope
| v1 (tx : Transaction) : TransactionEnvelope
| feeBump (tx : FeeBumpTransaction) : TransactionEnvelope
deriving DecidableEq, Repr

/-- `network.HashTransactionInEnvelope`: dispatch on the envelope type. -/
def HashTransactionInEnvelope
    (marshal : TransactionSignaturePayload → Except Err (List Nat))
    (hashFn : List Nat → List Nat)
    (envelope : TransactionEnvelope) (passphrase : String) : List Nat × Option Err :=
  match envelope with
  | TransactionEnvelope.v1 tx => HashTransaction marshal hashFn tx passphrase
  | TransactionEnvelope.v0 tx => HashTransactionV0 marshal hashFn tx passphrase
  | TransactionEnvelope.feeBump tx => HashFeeBumpTransaction marshal hashFn tx passphrase

/-- C10. For every transaction and every passphrase that is empty or all
whitespace, `hashTx` — and hence `HashTransaction`,
`HashFeeBumpTransaction`, `HashTransactionV0` and
`HashTransactionInEnvelope` — returns the zero 32-byte hash together with
the non-nil "empty network passphrase" error; no signature payload hash is
produced. -/
theorem hash_functions_reject_blank_passphrase
    (marshal : TransactionSignaturePayload → Except Err (List Nat))
    (hashFn : List Nat → List Nat) (passphrase : String)
    (h : passphrase.toList.all isSpaceGo)
    (tagged : TaggedTransaction) (tx1 : Transaction) (tx0 : TransactionV0)
    (txf : FeeBumpTransaction) (envelope : TransactionEnvelope) :
    hashTx marshal hashFn tagged passphrase =
      (zeroHash, some (Err.msg "empty network passphrase"))
    ∧ HashTransaction marshal hashFn tx1 passphrase =
      (zeroHash, some (Err.msg "empty network passphrase"))
    ∧ HashFeeBumpTransaction marshal hashFn txf passphrase =
      (zeroHash, some (Err.msg "empty network passphrase"))
    ∧ HashTransactionV0 marshal hashFn tx0 passphrase =
      (zeroHash, some (Err.msg "empty network passphrase"))
    ∧ HashTransactionInEnvelope marshal hashFn envelope passphrase =
      (zeroHash, some (Err.msg "empty network passphrase")) := by
  have ht := trimSpaceGo_eq_empty_of_all_space passphrase h
  refine ⟨?_, ?_, ?_, ?_, ?_⟩
  · simp [hashTx, ht]
  · simp [HashTransaction, hashTx, ht]
  · simp [HashFeeBumpTransaction, hashTx, ht]
  · simp [HashTransactionV0, HashTransaction, hashTx, ht]
  · cases envelope <;>
      simp [HashTransactionInEnvelope, HashTransaction, HashFeeBumpTransaction,
        HashTransactionV0, hashTx, ht]

/-- Witness for C10: a whitespace-only passphrase with concrete
transactions, marshaller and hash function. -/
theorem hash_functions_reject_blank_passphrase_witness :
    hashTx (fun _ => Except.ok []) (fun _ => []) (TaggedTransaction.tx
        ⟨0, 100, 1, 0, [], 0⟩) " " =
      (zeroHash, some (Err.msg "empty network passphrase"))
    ∧ HashTransaction (fun _ => Except.ok []) (fun _ => [])
        ⟨0, 100, 1, 0, [], 0⟩ " " =
      (zeroHash, some (Err.msg "empty network passphrase"))
    ∧ HashFeeBumpTransaction (fun _ => Except.ok []) (fun _ => [])
        ⟨0, 200, ⟨0, 100, 1, 0, [], 0⟩⟩ " " =
      (zeroHash, some (Err.msg "empty network passphrase"))
    ∧ HashTransactionV0 (fun _ => Except.ok []) (fun _ => [])
        ⟨0, 100, 1, 0, [], 0⟩ " " =
      (zeroHash, some (Err.msg "empty network passphrase"))
    ∧ HashTransactionInEnvelope (fun _ => Except.ok []) (fun _ => [])
        (TransactionEnvelope.v0 ⟨0, 100, 1, 0, [], 0⟩) " " =
      (zeroHash, some (Err.msg "empty network passphrase")) :=
  hash_functions_reject_blank_passphrase (fun _ => Except.ok []) (fun _ => [])
    " " (by decide) (TaggedTransaction.tx ⟨0, 100, 1, 0, [], 0⟩)
    ⟨0, 100, 1, 0, [], 0⟩ ⟨0, 100, 1, 0, [], 0⟩
    ⟨0, 200, ⟨0, 100, 1, 0, [], 0⟩⟩ (TransactionEnvelope.v0 ⟨0, 100, 1, 0, [], 0⟩)

end Lantah
